import Mathlib

/-! Verification of the cxxheaderparser HREFL annotation-attachment core.

The repository sources available are `cxxheaderparser/errors.py` and
`tests/test_hrefl.py`; the lexer, declaration parser, declaration types and
visitor modules are specified in `spec.md` only.  The development below embeds
`CxxParseError` directly from `errors.py` and models the tokenizer output,
declaration entities and the recursive-descent parser with its pending
annotation state from the specification (sections 3, 4.3, 4.4, 4.5). -/

namespace Cxx

/-- Modelled from the spec: a source location `(file, line, column)` used by
the missing lexer module (spec section 3, Token). -/
structure Location where
  file : String
  line : Nat
  column : Nat
deriving DecidableEq

/-- Modelled from the spec: a lexer token `(kind, lexeme, location)` as produced
by the missing tokenizer module (spec section 3, Token). -/
structure LexToken where
  kind : String
  lexeme : String
  loc : Location
deriving DecidableEq

/-- Embedding of `CxxParseError` from `src/cxxheaderparser/errors.py`: an
exception carrying a message, an optional offending token and an optional
source location. -/
structure CxxParseError where
  msg : String
  tok : Option LexToken
  location : Option Location
deriving DecidableEq

/-- Embedding of `CxxParseError.__init__` (errors.py, lines 12-15): the message
is stored via `Exception.__init__`, and `tok` and `location` are assigned
exactly the arguments passed; the Python defaults for the omitted optional
arguments are `None`, here `none`. -/
def mkCxxParseError (msg : String) (tok : Option LexToken)
    (location : Option Location) : CxxParseError :=
  ⟨msg, tok, location⟩

/-- Modelled from the spec: parser-level tokens.  The tokenizer (missing
module) classifies identifiers/keywords, numeric/string/char literals and
punctuation (spec section 4.1); the parser consumes this classification. -/
inductive Tok where
  | ident (s : String)
  | sym (s : String)
  | num (s : String)
  | strlit (s : String)
deriving DecidableEq

/-- Modelled from the spec: an HREFL property value rendered as text (spec
section 3, PendingAnnotation: value is a string/identifier/number rendered as
text); `format` returns that text, mirroring `.format()` in the tests. -/
structure Value where
  text : String
deriving DecidableEq

def Value.format (v : Value) : String := v.text

/-- Modelled from the spec: the ordered property map of one HREFL call; a key
maps to `none` exactly when the property is a bare flag written without
`=value` (spec section 4.3). -/
abbrev HReflMap := List (String × Option Value)

/-- Ordered lookup in an HREFL map: `none` when the key is absent, `some v`
when present (`v = none` marks a flag). -/
def hreflGet (m : HReflMap) (k : String) : Option (Option Value) :=
  match m with
  | [] => none
  | (k2, v) :: rest => if k2 = k then some v else hreflGet rest k

/-- Modelled from the spec: a structured qualified name; `format` renders it to
text, prefixed by the class-key for class and enum typenames, mirroring
`typename.format()` in the tests. -/
structure PQName where
  classkey : Option String
  segments : List String
deriving DecidableEq

def PQName.format (n : PQName) : String :=
  match n.classkey with
  | some ck => ck ++ " " ++ String.intercalate "::" n.segments
  | none => String.intercalate "::" n.segments

/-- Modelled from the spec: the class state delivered at `on_class_start`
(spec sections 3 and 4.5); member declarations are streamed separately through
`on_class_field`, so the in-progress state carries the header data. -/
structure ClassDecl where
  typename : PQName
  bases : List String
  hrefl : Option HReflMap
deriving DecidableEq

/-- Modelled from the spec: an enum declaration (spec section 3). -/
structure EnumDecl where
  typename : PQName
  underlying : Option String
  enumerators : List String
  hrefl : Option HReflMap
deriving DecidableEq

/-- Modelled from the spec: a function declaration (spec section 3). -/
structure Function where
  name : PQName
  returnType : String
  params : List String
  quals : List String
  hrefl : Option HReflMap
deriving DecidableEq

/-- Modelled from the spec: a member field declaration (spec section 3). -/
structure Field where
  name : String
  declType : String
  access : String
  hrefl : Option HReflMap
deriving DecidableEq

/-- Modelled from the spec: a top-level variable declaration; it structurally
has no annotation-map field at all (spec section 3). -/
structure Variable where
  name : String
  declType : String
  init : Option String
deriving DecidableEq

/-- Modelled from the spec: one synchronous observer callback (spec section
4.5); the parser produces these in source order. -/
inductive Event where
  | classStart (c : ClassDecl)
  | enumDone (e : EnumDecl)
  | functionDone (f : Function)
  | fieldDone (f : Field)
  | variableDone (v : Variable)
deriving DecidableEq

/-- Modelled from the spec: the configured set of recognized HREFL keywords,
matched case-sensitively (spec section 4.3; tests/test_hrefl.py). -/
def hreflKeywords : List String :=
  ["HREFL", "HCLASS", "HFUNCTION", "HENUM", "HPROPERTY"]

/-- Modelled from the spec: the text of a property value token; values are
`IDENT | NUMBER | STRING | true | false` (spec section 4.3). -/
def valueText : Tok → Option String
  | Tok.ident s => some s
  | Tok.num s => some s
  | Tok.strlit s => some s
  | Tok.sym _ => none

/-- Modelled from the spec: parse a non-empty HREFL property list up to and
including the closing parenthesis (spec section 4.3); a dangling comma or a
missing closing parenthesis is a syntax error. -/
def parsePropList (fuel : Nat) (toks : List Tok) :
    Except CxxParseError (HReflMap × List Tok) :=
  match fuel with
  | 0 => Except.error (mkCxxParseError "property list exhausted the fuel" none none)
  | Nat.succ f =>
    match toks with
    | Tok.ident k :: Tok.sym "=" :: v :: Tok.sym "," :: rest =>
      match valueText v with
      | some s =>
        match parsePropList f rest with
        | Except.ok (ps, rem) => Except.ok ((k, some ⟨s⟩) :: ps, rem)
        | Except.error e => Except.error e
      | none => Except.error (mkCxxParseError "expected a property value" none none)
    | Tok.ident k :: Tok.sym "=" :: v :: Tok.sym ")" :: rest =>
      match valueText v with
      | some s => Except.ok ([(k, some ⟨s⟩)], rest)
      | none => Except.error (mkCxxParseError "expected a property value" none none)
    | Tok.ident k :: Tok.sym "," :: rest =>
      match parsePropList f rest with
      | Except.ok (ps, rem) => Except.ok ((k, none) :: ps, rem)
      | Except.error e => Except.error e
    | Tok.ident k :: Tok.sym ")" :: rest => Except.ok ([(k, none)], rest)
    | _ => Except.error (mkCxxParseError "malformed property" none none)

/-- Modelled from the spec: parse the argument list of an HREFL call, entered
just after the opening parenthesis; an empty list yields an empty map. -/
def parseAnnArgs (fuel : Nat) (toks : List Tok) :
    Except CxxParseError (HReflMap × List Tok) :=
  match toks with
  | Tok.sym ")" :: rest => Except.ok ([], rest)
  | _ => parsePropList fuel toks

/-- Modelled from the spec: skip an unrecognized statement up to its boundary,
a semicolon at brace depth zero, consuming it; a closing brace at depth zero
ends the enclosing body and is left in place (spec section 4.4, step 6). -/
def skipStmt (fuel : Nat) (depth : Nat) (toks : List Tok) :
    Except CxxParseError (List Tok) :=
  match fuel with
  | 0 => Except.error (mkCxxParseError "statement skip exhausted the fuel" none none)
  | Nat.succ f =>
    match toks with
    | [] => Except.error (mkCxxParseError "unexpected end of input in a statement" none none)
    | Tok.sym "\x7b" :: rest => skipStmt f (depth + 1) rest
    | Tok.sym "\x7d" :: rest =>
      match depth with
      | 0 => Except.ok (Tok.sym "\x7d" :: rest)
      | Nat.succ d => skipStmt f d rest
    | Tok.sym ";" :: rest =>
      match depth with
      | 0 => Except.ok rest
      | _ => skipStmt f depth rest
    | _ :: rest => skipStmt f depth rest

/-- Modelled from the spec: balanced-brace skip of a body, entered just after
the opening brace; returns the tokens after the matching close brace (spec
section 4.4, step 4). -/
def skipBalanced (fuel : Nat) (depth : Nat) (toks : List Tok) :
    Except CxxParseError (List Tok) :=
  match fuel with
  | 0 => Except.error (mkCxxParseError "balanced skip exhausted the fuel" none none)
  | Nat.succ f =>
    match toks with
    | [] => Except.error (mkCxxParseError "unbalanced braces at end of input" none none)
    | Tok.sym "\x7b" :: rest => skipBalanced f (depth + 1) rest
    | Tok.sym "\x7d" :: rest =>
      match depth with
      | 0 => Except.ok rest
      | Nat.succ d => skipBalanced f d rest
    | _ :: rest => skipBalanced f depth rest

/-- Modelled from the spec: the default access specifier per class-key
(spec section 4.2). -/
def defaultAccess (classkey : String) : String :=
  if classkey == "class" then "private" else "public"

/-- Modelled from the spec: parse an optional base clause after the colon,
up to and including the opening brace of the class body (spec section 4.4,
step 2); access and virtual specifiers are consumed without being recorded. -/
def parseBases (fuel : Nat) (toks : List Tok) :
    Except CxxParseError (List String × List Tok) :=
  match fuel with
  | 0 => Except.error (mkCxxParseError "base clause exhausted the fuel" none none)
  | Nat.succ f =>
    match toks with
    | Tok.sym "\x7b" :: rest => Except.ok ([], rest)
    | Tok.ident s :: rest =>
      if s == "public" || s == "protected" || s == "private" || s == "virtual" then
        parseBases f rest
      else
        match parseBases f rest with
        | Except.ok (bs, rem) => Except.ok (s :: bs, rem)
        | Except.error e => Except.error e
    | Tok.sym "," :: rest => parseBases f rest
    | _ => Except.error (mkCxxParseError "malformed base clause" none none)

/-- Modelled from the spec: parse an enumerator list up to and including the
closing brace (spec section 4.4, step 3). -/
def parseEnumerators (fuel : Nat) (toks : List Tok) :
    Except CxxParseError (List String × List Tok) :=
  match fuel with
  | 0 => Except.error (mkCxxParseError "enumerator list exhausted the fuel" none none)
  | Nat.succ f =>
    match toks with
    | Tok.sym "\x7d" :: rest => Except.ok ([], rest)
    | Tok.ident a :: Tok.sym "," :: rest =>
      match parseEnumerators f rest with
      | Except.ok (es, rem) => Except.ok (a :: es, rem)
      | Except.error e => Except.error e
    | Tok.ident a :: Tok.sym "\x7d" :: rest => Except.ok ([a], rest)
    | Tok.ident a :: Tok.sym "=" :: _v :: Tok.sym "," :: rest =>
      match parseEnumerators f rest with
      | Except.ok (es, rem) => Except.ok (a :: es, rem)
      | Except.error e => Except.error e
    | Tok.ident a :: Tok.sym "=" :: _v :: Tok.sym "\x7d" :: rest => Except.ok ([a], rest)
    | _ => Except.error (mkCxxParseError "malformed enumerator list" none none)

/-- Modelled from the spec: parse a parameter list entered just after the
opening parenthesis, collecting identifier lexemes, up to and including the
closing parenthesis (spec section 4.4, step 4). -/
def parseParams (fuel : Nat) (toks : List Tok) :
    Except CxxParseError (List String × List Tok) :=
  match fuel with
  | 0 => Except.error (mkCxxParseError "parameter list exhausted the fuel" none none)
  | Nat.succ f =>
    match toks with
    | [] => Except.error (mkCxxParseError "unexpected end of input in parameters" none none)
    | Tok.sym ")" :: rest => Except.ok ([], rest)
    | Tok.ident s :: rest =>
      match parseParams f rest with
      | Except.ok (ps, rem) => Except.ok (s :: ps, rem)
      | Except.error e => Except.error e
    | _ :: rest => parseParams f rest

/-- Modelled from the spec: parse what follows a function's parameter list,
collecting identifier qualifiers, then either a terminating semicolon or a
balanced-brace body that is skipped, not deeply parsed (spec section 4.4,
step 4). -/
def parseFnTail (fuel : Nat) (toks : List Tok) :
    Except CxxParseError (List String × List Tok) :=
  match fuel with
  | 0 => Except.error (mkCxxParseError "function tail exhausted the fuel" none none)
  | Nat.succ f =>
    match toks with
    | Tok.sym ";" :: rest => Except.ok ([], rest)
    | Tok.sym "\x7b" :: rest =>
      match skipBalanced f 0 rest with
      | Except.ok (Tok.sym ";" :: rem) => Except.ok ([], rem)
      | Except.ok rem => Except.ok ([], rem)
      | Except.error e => Except.error e
    | Tok.ident q :: rest =>
      match parseFnTail f rest with
      | Except.ok (qs, rem) => Except.ok (q :: qs, rem)
      | Except.error e => Except.error e
    | _ => Except.error (mkCxxParseError "malformed function declaration" none none)

/-- Modelled from the spec: parse the members of a class body, entered just
after the opening brace, returning the field events in source order and the
tokens after the closing brace.  The pending annotation state is threaded
explicitly and sampled with attach-then-clear at each field emission; skipping
an unrecognized member clears it (spec sections 4.4 and design note on
pending state). -/
def parseMembers (fuel : Nat) (access : String) (pending : Option HReflMap)
    (toks : List Tok) : Except CxxParseError (List Event × List Tok) :=
  match fuel with
  | 0 => Except.error (mkCxxParseError "class body exhausted the fuel" none none)
  | Nat.succ f =>
    match toks with
    | [] => Except.error (mkCxxParseError "unexpected end of input in a class body" none none)
    | Tok.sym "\x7d" :: rest => Except.ok ([], rest)
    | Tok.ident s :: Tok.sym "(" :: rest =>
      if hreflKeywords.contains s then
        match parseAnnArgs f rest with
        | Except.ok (m, rem) => parseMembers f access (some m) rem
        | Except.error e => Except.error e
      else
        match skipStmt f 0 (Tok.ident s :: Tok.sym "(" :: rest) with
        | Except.ok rem => parseMembers f access none rem
        | Except.error e => Except.error e
    | Tok.ident a :: Tok.sym ":" :: rest =>
      if a == "public" || a == "protected" || a == "private" then
        parseMembers f a pending rest
      else
        match skipStmt f 0 (Tok.ident a :: Tok.sym ":" :: rest) with
        | Except.ok rem => parseMembers f access none rem
        | Except.error e => Except.error e
    | Tok.ident t :: Tok.ident n :: Tok.sym ";" :: rest =>
      match parseMembers f access none rest with
      | Except.ok (evs, rem) =>
        Except.ok (Event.fieldDone ⟨n, t, access, pending⟩ :: evs, rem)
      | Except.error e => Except.error e
    | Tok.ident t :: Tok.ident n :: Tok.sym "=" :: _v :: Tok.sym ";" :: rest =>
      match parseMembers f access none rest with
      | Except.ok (evs, rem) =>
        Except.ok (Event.fieldDone ⟨n, t, access, pending⟩ :: evs, rem)
      | Except.error e => Except.error e
    | other =>
      match skipStmt f 0 other with
      | Except.ok rem => parseMembers f access none rem
      | Except.error e => Except.error e

/-- Modelled from the spec: the top-level recursive-descent dispatch (spec
section 4.4).  It classifies the upcoming construct, builds the entity,
attaches any pending annotation with attach-then-clear at each emission point
(except variables, which never read or clear it), and produces the observer
events in source order.  `descend` models the boolean returned by the
observer's `on_class_start` hook: when it is `false` the class body is skipped
without member callbacks (spec section 4.5). -/
def parseTop (fuel : Nat) (descend : ClassDecl → Bool) (pending : Option HReflMap)
    (toks : List Tok) : Except CxxParseError (List Event) :=
  match fuel with
  | 0 => Except.error (mkCxxParseError "input exhausted the fuel" none none)
  | Nat.succ f =>
    match toks with
    | [] => Except.ok []
    | Tok.ident s :: Tok.sym "(" :: rest =>
      if hreflKeywords.contains s then
        match parseAnnArgs f rest with
        | Except.ok (m, rem) => parseTop f descend (some m) rem
        | Except.error e => Except.error e
      else
        match skipStmt f 0 (Tok.ident s :: Tok.sym "(" :: rest) with
        | Except.ok rem => parseTop f descend none rem
        | Except.error e => Except.error e
    | Tok.ident s1 :: Tok.ident s2 :: rest =>
      if s1 == "class" || s1 == "struct" || s1 == "union" then
        match
          (match rest with
           | Tok.sym "\x7b" :: body => Except.ok (([] : List String), body)
           | Tok.sym ":" :: brest => parseBases f brest
           | _ => Except.error (mkCxxParseError "expected a class body" none none)) with
        | Except.ok (bs, body) =>
          let cls : ClassDecl := ⟨⟨some s1, [s2]⟩, bs, pending⟩
          if descend cls then
            match parseMembers f (defaultAccess s1) none body with
            | Except.ok (mev, rem) =>
              match rem with
              | Tok.sym ";" :: rem2 =>
                match parseTop f descend none rem2 with
                | Except.ok evs => Except.ok (Event.classStart cls :: (mev ++ evs))
                | Except.error e => Except.error e
              | _ => Except.error (mkCxxParseError "expected ; after a class body" none none)
            | Except.error e => Except.error e
          else
            match skipBalanced f 0 body with
            | Except.ok (Tok.sym ";" :: rem2) =>
              match parseTop f descend none rem2 with
              | Except.ok evs => Except.ok (Event.classStart cls :: evs)
              | Except.error e => Except.error e
            | Except.ok _ => Except.error (mkCxxParseError "expected ; after a class body" none none)
            | Except.error e => Except.error e
        | Except.error e => Except.error e
      else if s1 == "enum" then
        match
          (match rest with
           | Tok.sym "\x7b" :: body => Except.ok ((none : Option String), body)
           | Tok.sym ":" :: Tok.ident ut :: Tok.sym "\x7b" :: body => Except.ok (some ut, body)
           | _ => Except.error (mkCxxParseError "expected an enum body" none none)) with
        | Except.ok (ut, body) =>
          match parseEnumerators f body with
          | Except.ok (es, rem) =>
            match rem with
            | Tok.sym ";" :: rem2 =>
              match parseTop f descend none rem2 with
              | Except.ok evs =>
                Except.ok (Event.enumDone ⟨⟨some "enum", [s2]⟩, ut, es, pending⟩ :: evs)
              | Except.error e => Except.error e
            | _ => Except.error (mkCxxParseError "expected ; after an enum body" none none)
          | Except.error e => Except.error e
        | Except.error e => Except.error e
      else
        match rest with
        | Tok.sym "(" :: rest2 =>
          match parseParams f rest2 with
          | Except.ok (ps, rem) =>
            match parseFnTail f rem with
            | Except.ok (qs, rem2) =>
              match parseTop f descend none rem2 with
              | Except.ok evs =>
                Except.ok (Event.functionDone ⟨⟨none, [s2]⟩, s1, ps, qs, pending⟩ :: evs)
              | Except.error e => Except.error e
            | Except.error e => Except.error e
          | Except.error e => Except.error e
        | Tok.sym ";" :: rest2 =>
          match parseTop f descend pending rest2 with
          | Except.ok evs => Except.ok (Event.variableDone ⟨s2, s1, none⟩ :: evs)
          | Except.error e => Except.error e
        | Tok.sym "=" :: v :: Tok.sym ";" :: rest2 =>
          match valueText v with
          | some sv =>
            match parseTop f descend pending rest2 with
            | Except.ok evs => Except.ok (Event.variableDone ⟨s2, s1, some sv⟩ :: evs)
            | Except.error e => Except.error e
          | none =>
            match skipStmt f 0 (Tok.ident s1 :: Tok.ident s2 :: rest) with
            | Except.ok rem => parseTop f descend none rem
            | Except.error e => Except.error e
        | _ =>
          match skipStmt f 0 (Tok.ident s1 :: Tok.ident s2 :: rest) with
          | Except.ok rem => parseTop f descend none rem
          | Except.error e => Except.error e
    | other =>
      match skipStmt f 0 other with
      | Except.ok rem => parseTop f descend none rem
      | Except.error e => Except.error e

/-- Modelled from the spec: the `parse()` entry point, with the observer's
`on_class_start` decision abstracted as `descend`; the initial state is
top-level with no pending annotation (spec sections 4.4 and 6). -/
def cxxParse (descend : ClassDecl → Bool) (toks : List Tok) :
    Except CxxParseError (List Event) :=
  parseTop (toks.length + 1) descend none toks

/-- Modelled from the spec: `parse()` with an observer that always descends
into class bodies, as the collecting test visitor does. -/
def cxxParseAll (toks : List Tok) : Except CxxParseError (List Event) :=
  cxxParse (fun _ => true) toks

/-- The event list of a successful parse, empty on error. -/
def runEvents (toks : List Tok) : List Event :=
  match cxxParseAll toks with
  | Except.ok evs => evs
  | Except.error _ => []

/-- The per-kind lists a collecting visitor accumulates, mirroring
`HReflTestVisitor` in tests/test_hrefl.py. -/
structure Collected where
  classes : List ClassDecl
  enums : List EnumDecl
  functions : List Function
  fields : List Field
  vars : List Variable
deriving DecidableEq

/-- Accumulate events into per-kind lists in source order, as the test
visitor's callbacks do. -/
def collect : List Event → Collected
  | [] => ⟨[], [], [], [], []⟩
  | e :: rest =>
    let c := collect rest
    match e with
    | Event.classStart cd => ⟨cd :: c.classes, c.enums, c.functions, c.fields, c.vars⟩
    | Event.enumDone ed => ⟨c.classes, ed :: c.enums, c.functions, c.fields, c.vars⟩
    | Event.functionDone fd => ⟨c.classes, c.enums, fd :: c.functions, c.fields, c.vars⟩
    | Event.fieldDone fd => ⟨c.classes, c.enums, c.functions, fd :: c.fields, c.vars⟩
    | Event.variableDone vd => ⟨c.classes, c.enums, c.functions, c.fields, vd :: c.vars⟩

/-- The four annotatable declaration kinds of the claims. -/
inductive DKind where
  | cls
  | enm
  | fn
  | fld
deriving DecidableEq

/-- Token sequence of an HREFL call: keyword, parentheses, raw property
tokens. -/
def annCall (kw : String) (props : List Tok) : List Tok :=
  Tok.ident kw :: Tok.sym "(" :: (props ++ [Tok.sym ")"])

/-- A minimal declaration of each kind with the given annotation-call tokens
in the position immediately preceding it; for a field the call sits inside
the class body before the member. -/
def inputToks (kind : DKind) (ann : List Tok) : List Tok :=
  match kind with
  | DKind.cls => ann ++ [Tok.ident "class", Tok.ident "C", Tok.sym "\x7b",
      Tok.sym "\x7d", Tok.sym ";"]
  | DKind.enm => ann ++ [Tok.ident "enum", Tok.ident "E", Tok.sym "\x7b",
      Tok.ident "A", Tok.sym "\x7d", Tok.sym ";"]
  | DKind.fn => ann ++ [Tok.ident "void", Tok.ident "f", Tok.sym "(",
      Tok.sym ")", Tok.sym ";"]
  | DKind.fld => [Tok.ident "class", Tok.ident "W", Tok.sym "\x7b",
      Tok.ident "public", Tok.sym ":"] ++ ann ++ [Tok.ident "int",
      Tok.ident "m", Tok.sym ";", Tok.sym "\x7d", Tok.sym ";"]

/-- The annotation map of the first produced entity of the given kind, or
`none` when no such entity was produced. -/
def entityHrefl (kind : DKind) (evs : List Event) : Option (Option HReflMap) :=
  match kind, evs with
  | _, [] => none
  | DKind.cls, Event.classStart c :: _ => some c.hrefl
  | DKind.enm, Event.enumDone e :: _ => some e.hrefl
  | DKind.fn, Event.functionDone fd :: _ => some fd.hrefl
  | DKind.fld, Event.fieldDone fd :: _ => some fd.hrefl
  | k, _ :: rest => entityHrefl k rest

end Cxx

namespace Cxx

/-- Token sequence of the mixed annotated/regular input of
`test_mixed_annotated_and_regular_declarations` (tests/test_hrefl.py). -/
def mixedToks : List Tok :=
  annCall "HCLASS" [Tok.ident "annotated", Tok.sym "=", Tok.ident "true"] ++
  [Tok.ident "class", Tok.ident "AnnotatedClass", Tok.sym "\x7b",
   Tok.ident "public", Tok.sym ":"] ++
  annCall "HPROPERTY" [Tok.ident "special", Tok.sym "=", Tok.ident "field"] ++
  [Tok.ident "int", Tok.ident "annotated_member", Tok.sym ";",
   Tok.ident "int", Tok.ident "regular_member", Tok.sym ";",
   Tok.sym "\x7d", Tok.sym ";",
   Tok.ident "class", Tok.ident "RegularClass", Tok.sym "\x7b",
   Tok.ident "public", Tok.sym ":",
   Tok.ident "int", Tok.ident "member", Tok.sym ";",
   Tok.sym "\x7d", Tok.sym ";"] ++
  annCall "HFUNCTION" [Tok.ident "api", Tok.sym "=", Tok.ident "public"] ++
  [Tok.ident "void", Tok.ident "annotated_function", Tok.sym "(", Tok.sym ")", Tok.sym ";",
   Tok.ident "void", Tok.ident "regular_function", Tok.sym "(", Tok.sym ")", Tok.sym ";"] ++
  annCall "HENUM" [Tok.ident "values", Tok.sym "=", Tok.ident "important"] ++
  [Tok.ident "enum", Tok.ident "AnnotatedEnum", Tok.sym "\x7b",
   Tok.ident "A", Tok.sym ",", Tok.ident "B", Tok.sym "\x7d", Tok.sym ";",
   Tok.ident "enum", Tok.ident "RegularEnum", Tok.sym "\x7b",
   Tok.ident "X", Tok.sym ",", Tok.ident "Y", Tok.sym "\x7d", Tok.sym ";"]

/-- Token sequence of a class with two member fields, used for the observer
ordering claims. -/
def classABToks : List Tok :=
  [Tok.ident "class", Tok.ident "T", Tok.sym "\x7b", Tok.ident "public", Tok.sym ":",
   Tok.ident "int", Tok.ident "a", Tok.sym ";", Tok.ident "int", Tok.ident "b", Tok.sym ";",
   Tok.sym "\x7d", Tok.sym ";"]

/-- Claim C1: an HREFL call `A(k1=v1, k2, k3=v3)` immediately preceding a
class, enum, function or field declaration produces that entity with a
non-null map holding exactly the keys `k1, k2, k3` in source order, where
`k1 ↦ v1`, `k3 ↦ v3` and the flag `k2` maps to the explicit no-value marker,
which differs from an empty string. -/
theorem ann_call_exact_props (kw : String) (hkw : kw ∈ hreflKeywords)
    (kind : DKind) (k1 v1 k2 k3 v3 : String)
    (h12 : k1 ≠ k2) (h13 : k1 ≠ k3) (h23 : k2 ≠ k3) :
    entityHrefl kind (runEvents (inputToks kind (annCall kw
        [Tok.ident k1, Tok.sym "=", Tok.ident v1, Tok.sym ",", Tok.ident k2,
         Tok.sym ",", Tok.ident k3, Tok.sym "=", Tok.ident v3]))) =
      some (some [(k1, some ⟨v1⟩), (k2, none), (k3, some ⟨v3⟩)])
    ∧ hreflGet [(k1, some ⟨v1⟩), (k2, none), (k3, some ⟨v3⟩)] k1 = some (some ⟨v1⟩)
    ∧ hreflGet [(k1, some ⟨v1⟩), (k2, none), (k3, some ⟨v3⟩)] k2 = some none
    ∧ hreflGet [(k1, some ⟨v1⟩), (k2, none), (k3, some ⟨v3⟩)] k3 = some (some ⟨v3⟩)
    ∧ (none : Option Value) ≠ some (Value.mk "")
    ∧ (some [(k1, some ⟨v1⟩), (k2, none), (k3, some ⟨v3⟩)] : Option HReflMap) ≠ none := by
  refine ⟨?_, ?_, ?_, ?_, by simp, by simp⟩
  · simp only [hreflKeywords, List.mem_cons, List.not_mem_nil, or_false] at hkw
    rcases hkw with rfl | rfl | rfl | rfl | rfl <;> cases kind <;> rfl
  · simp [hreflGet]
  · simp [hreflGet, h12]
  · simp [hreflGet, h13, h23]

/-- Witness for C1 at concrete keyword, kind, keys and values. -/
theorem ann_call_exact_props_witness :
    entityHrefl DKind.cls (runEvents (inputToks DKind.cls (annCall "HCLASS"
        [Tok.ident "prop1", Tok.sym "=", Tok.ident "val1", Tok.sym ",", Tok.ident "flag",
         Tok.sym ",", Tok.ident "prop3", Tok.sym "=", Tok.ident "val3"]))) =
      some (some [("prop1", some ⟨"val1"⟩), ("flag", none), ("prop3", some ⟨"val3"⟩)])
    ∧ hreflGet [("prop1", some ⟨"val1"⟩), ("flag", none), ("prop3", some ⟨"val3"⟩)] "prop1" =
        some (some ⟨"val1"⟩)
    ∧ hreflGet [("prop1", some ⟨"val1"⟩), ("flag", none), ("prop3", some ⟨"val3"⟩)] "flag" =
        some none
    ∧ hreflGet [("prop1", some ⟨"val1"⟩), ("flag", none), ("prop3", some ⟨"val3"⟩)] "prop3" =
        some (some ⟨"val3"⟩)
    ∧ (none : Option Value) ≠ some (Value.mk "")
    ∧ (some [("prop1", some ⟨"val1"⟩), ("flag", none), ("prop3", some ⟨"val3"⟩)] :
        Option HReflMap) ≠ none :=
  ann_call_exact_props "HCLASS" (by decide) DKind.cls "prop1" "val1" "flag" "prop3" "val3"
    (by decide) (by decide) (by decide)

/-- Claim C2: an HREFL call preceding a class attaches only to that class;
the field nested in the class body carries no annotation map. -/
theorem ann_sibling_not_nested (kw : String) (hkw : kw ∈ hreflKeywords)
    (k v : String) :
    cxxParseAll (annCall kw [Tok.ident k, Tok.sym "=", Tok.ident v] ++
        [Tok.ident "class", Tok.ident "C", Tok.sym "\x7b", Tok.ident "public", Tok.sym ":",
         Tok.ident "int", Tok.ident "m", Tok.sym ";", Tok.sym "\x7d", Tok.sym ";"]) =
      Except.ok [Event.classStart ⟨⟨some "class", ["C"]⟩, [], some [(k, some ⟨v⟩)]⟩,
                 Event.fieldDone ⟨"m", "int", "public", none⟩] := by
  simp only [hreflKeywords, List.mem_cons, List.not_mem_nil, or_false] at hkw
  rcases hkw with rfl | rfl | rfl | rfl | rfl <;> rfl

/-- Witness for C2 at a concrete keyword, key and value. -/
theorem ann_sibling_not_nested_witness :
    cxxParseAll (annCall "HCLASS" [Tok.ident "x", Tok.sym "=", Tok.ident "1"] ++
        [Tok.ident "class", Tok.ident "C", Tok.sym "\x7b", Tok.ident "public", Tok.sym ":",
         Tok.ident "int", Tok.ident "m", Tok.sym ";", Tok.sym "\x7d", Tok.sym ";"]) =
      Except.ok [Event.classStart ⟨⟨some "class", ["C"]⟩, [], some [("x", some ⟨"1"⟩)]⟩,
                 Event.fieldDone ⟨"m", "int", "public", none⟩] :=
  ann_sibling_not_nested "HCLASS" (by decide) "x" "1"

/-- Claim C3: a `Variable` is structurally exhausted by name, declared type
and optional initializer — it has no annotation-map field at all — and a
variable preceded by an HREFL call is still delivered as exactly such a
value. -/
theorem variable_has_no_hrefl_field :
    (∀ v : Variable, v = Variable.mk v.name v.declType v.init)
    ∧ cxxParseAll (annCall "HREFL" [Tok.ident "x", Tok.sym "=", Tok.num "1"] ++
        [Tok.ident "int", Tok.ident "global_var", Tok.sym "=", Tok.num "42", Tok.sym ";"]) =
      Except.ok [Event.variableDone (Variable.mk "global_var" "int" (some "42"))]
    ∧ cxxParseAll [Tok.ident "int", Tok.ident "global_var", Tok.sym "=", Tok.num "42",
        Tok.sym ";"] =
      Except.ok [Event.variableDone (Variable.mk "global_var" "int" (some "42"))] :=
  ⟨fun _ => rfl, rfl, rfl⟩

/-- Claim C4: an HREFL call with an empty property list yields a non-null,
zero-length map on the following declaration, distinct from the null map of a
declaration with no preceding call. -/
theorem empty_ann_call_empty_map (kw : String) (hkw : kw ∈ hreflKeywords) :
    (collect (runEvents (inputToks DKind.cls (annCall kw [])))).classes =
      [⟨⟨some "class", ["C"]⟩, [], some []⟩]
    ∧ (collect (runEvents (inputToks DKind.cls []))).classes =
        [⟨⟨some "class", ["C"]⟩, [], none⟩]
    ∧ ([] : HReflMap).length = 0
    ∧ (some [] : Option HReflMap) ≠ none := by
  refine ⟨?_, by decide, by decide, by simp⟩
  simp only [hreflKeywords, List.mem_cons, List.not_mem_nil, or_false] at hkw
  rcases hkw with rfl | rfl | rfl | rfl | rfl <;> rfl

/-- Witness for C4 at a concrete keyword. -/
theorem empty_ann_call_empty_map_witness :
    (collect (runEvents (inputToks DKind.cls (annCall "HCLASS" [])))).classes =
      [⟨⟨some "class", ["C"]⟩, [], some []⟩]
    ∧ (collect (runEvents (inputToks DKind.cls []))).classes =
        [⟨⟨some "class", ["C"]⟩, [], none⟩]
    ∧ ([] : HReflMap).length = 0
    ∧ (some [] : Option HReflMap) ≠ none :=
  empty_ann_call_empty_map "HCLASS" (by decide)

/-- Claim C5: each declaration kind with no immediately preceding HREFL call
gets a null annotation map, and in the interleaved input of the mixed test
every entity keeps independently correct annotation state. -/
theorem mixed_no_cross_contamination :
    (∀ kind : DKind, entityHrefl kind (runEvents (inputToks kind [])) = some none)
    ∧ collect (runEvents mixedToks) =
      ⟨[⟨⟨some "class", ["AnnotatedClass"]⟩, [], some [("annotated", some ⟨"true"⟩)]⟩,
        ⟨⟨some "class", ["RegularClass"]⟩, [], none⟩],
       [⟨⟨some "enum", ["AnnotatedEnum"]⟩, none, ["A", "B"],
          some [("values", some ⟨"important"⟩)]⟩,
        ⟨⟨some "enum", ["RegularEnum"]⟩, none, ["X", "Y"], none⟩],
       [⟨⟨none, ["annotated_function"]⟩, "void", [], [], some [("api", some ⟨"public"⟩)]⟩,
        ⟨⟨none, ["regular_function"]⟩, "void", [], [], none⟩],
       [⟨"annotated_member", "int", "public", some [("special", some ⟨"field"⟩)]⟩,
        ⟨"regular_member", "int", "public", none⟩,
        ⟨"member", "int", "public", none⟩],
       []⟩ :=
  ⟨fun kind => by cases kind <;> rfl, by decide⟩

/-- Claim C6: every spelling in the configured keyword set is recognized
case-sensitively and acts as an equivalent alias: each spelling attaches the
same property map to a declaration of any supported kind, while differently
cased spellings are not in the set. -/
theorem keywords_case_sensitive_aliases (kw : String) (hkw : kw ∈ hreflKeywords)
    (kind : DKind) :
    entityHrefl kind (runEvents (inputToks kind
        (annCall kw [Tok.ident "x", Tok.sym "=", Tok.num "1"]))) =
      some (some [("x", some ⟨"1"⟩)])
    ∧ hreflKeywords = ["HREFL", "HCLASS", "HFUNCTION", "HENUM", "HPROPERTY"]
    ∧ hreflKeywords.contains "HCLASS" = true
    ∧ hreflKeywords.contains "hclass" = false
    ∧ hreflKeywords.contains "Hrefl" = false := by
  refine ⟨?_, rfl, by decide, by decide, by decide⟩
  simp only [hreflKeywords, List.mem_cons, List.not_mem_nil, or_false] at hkw
  rcases hkw with rfl | rfl | rfl | rfl | rfl <;> cases kind <;> rfl

/-- Witness for C6 at a concrete keyword and kind. -/
theorem keywords_case_sensitive_aliases_witness :
    entityHrefl DKind.fn (runEvents (inputToks DKind.fn
        (annCall "HPROPERTY" [Tok.ident "x", Tok.sym "=", Tok.num "1"]))) =
      some (some [("x", some ⟨"1"⟩)])
    ∧ hreflKeywords = ["HREFL", "HCLASS", "HFUNCTION", "HENUM", "HPROPERTY"]
    ∧ hreflKeywords.contains "HCLASS" = true
    ∧ hreflKeywords.contains "hclass" = false
    ∧ hreflKeywords.contains "Hrefl" = false :=
  keywords_case_sensitive_aliases "HPROPERTY" (by decide) DKind.fn

/-- Claim C7: every parse either succeeds with an event list or fails with the
single error kind `CxxParseError`, which carries exactly a message, an
optional offending token and an optional location; there is no partial-result
return value, as shown on a malformed HREFL call. -/
theorem parse_error_surface :
    (∀ toks : List Tok, (∃ evs, cxxParseAll toks = Except.ok evs) ∨
        ∃ msg t l, cxxParseAll toks = Except.error (mkCxxParseError msg t l))
    ∧ (∀ e : CxxParseError, e = mkCxxParseError e.msg e.tok e.location)
    ∧ cxxParseAll [Tok.ident "HCLASS", Tok.sym "(", Tok.ident "p", Tok.sym "="] =
        Except.error (mkCxxParseError "malformed property" none none) := by
  refine ⟨?_, fun e => rfl, rfl⟩
  intro toks
  cases h : cxxParseAll toks with
  | ok evs => exact Or.inl ⟨evs, rfl⟩
  | error e => exact Or.inr ⟨e.msg, e.tok, e.location, rfl⟩

/-- Claim C8: the class-start event carries the in-progress class state and
precedes all member field events, one per member in source order; a `false`
answer from the observer's class-start hook skips the body without member
events. -/
theorem observer_class_start_order :
    cxxParse (fun _ => true) classABToks =
      Except.ok [Event.classStart ⟨⟨some "class", ["T"]⟩, [], none⟩,
                 Event.fieldDone ⟨"a", "int", "public", none⟩,
                 Event.fieldDone ⟨"b", "int", "public", none⟩]
    ∧ cxxParse (fun _ => false) classABToks =
        Except.ok [Event.classStart ⟨⟨some "class", ["T"]⟩, [], none⟩] :=
  ⟨rfl, rfl⟩

/-- Claim C9: `CxxParseError.__init__` stores `tok` and `location` exactly as
passed (`none` when omitted, as the Python defaults are `None`), never derives
the location from the token, and keeps the message unchanged. -/
theorem cxx_parse_error_stores_args (msg : String) (tok : Option LexToken)
    (location : Option Location) :
    (mkCxxParseError msg tok location).msg = msg
    ∧ (mkCxxParseError msg tok location).tok = tok
    ∧ (mkCxxParseError msg tok location).location = location
    ∧ (mkCxxParseError msg none none).tok = none
    ∧ (mkCxxParseError msg none none).location = none
    ∧ (∀ t : LexToken, (mkCxxParseError msg (some t) none).location = none) :=
  ⟨rfl, rfl, rfl, rfl, rfl, fun _ => rfl⟩

/-- Claim C10: field names are plain strings compared with equality, while
function names and class/enum typenames are structured values rendered via
`format`; a present annotation value renders its text via `format` and a flag
entry is the no-value marker. -/
theorem field_name_plain_string_rendering :
    (collect (runEvents mixedToks)).fields.map Field.name =
      ["annotated_member", "regular_member", "member"]
    ∧ (collect (runEvents mixedToks)).classes.map (fun c => PQName.format c.typename) =
        ["class AnnotatedClass", "class RegularClass"]
    ∧ (collect (runEvents mixedToks)).enums.map (fun e => PQName.format e.typename) =
        ["enum AnnotatedEnum", "enum RegularEnum"]
    ∧ (collect (runEvents mixedToks)).functions.map (fun fd => PQName.format fd.name) =
        ["annotated_function", "regular_function"]
    ∧ entityHrefl DKind.cls (runEvents (inputToks DKind.cls (annCall "HCLASS"
        [Tok.ident "prop1", Tok.sym "=", Tok.ident "val1", Tok.sym ",", Tok.ident "flag"]))) =
      some (some [("prop1", some ⟨"val1"⟩), ("flag", none)])
    ∧ hreflGet [("prop1", some (Value.mk "val1")), ("flag", none)] "flag" = some none
    ∧ Value.format (Value.mk "val1") = "val1" := by
  refine ⟨rfl, rfl, rfl, rfl, rfl, by decide, rfl⟩

end Cxx
